import Mathlib

/-!
# Verification of the ProductParcer ingestion pipeline

A shallow embedding of the ProductParcer repository (`src/app/`): the
row-level validation engine (`main.py:validate_and_build`, together with
`validators.py` and `ai_title.py`), the semicolon-CSV parser
(`ingest.py:parse_semicolon_csv`, a `csv.DictReader` over the decoded
text), and the run orchestration (`main.py:_ingest_impl` / `ingest` with
the module-level `PROGRESS` dict and the delete-then-insert store swap).

Network effects (HTTP HEAD/GET probes, the OpenAI title-assessment call)
are modelled by passing each call's outcome as an explicit argument: an
HTTP response status, a transport exception, or a parsed/unparsable body.
Python `float` values coming out of `to_float` are modelled as rationals
(`ℚ`), with the decimal-literal fragment of Python's `float()` parser made
explicit; `None` is `Option.none` throughout; string truthiness (`not s`)
is emptiness.
-/

/-! ## Small string helpers (Python string operations over `List Char`) -/

/-- `str.strip()`: drop whitespace from both ends. -/
def pyStrip (s : String) : String :=
  String.mk (((s.toList.dropWhile Char.isWhitespace).reverse.dropWhile
      Char.isWhitespace).reverse)

/-- `str.startswith(p)`: the first `|p|` characters of `s` are exactly `p`. -/
def strStartsWith (s p : String) : Bool :=
  decide (s.toList.take p.toList.length = p.toList)

/-- `str.lower()` character by character. -/
def pyLower (s : String) : String := String.mk (s.toList.map Char.toLower)

/-- `s[:n]`: the first `n` characters of `s`. -/
def strTake (s : String) (n : Nat) : String := String.mk (s.toList.take n)

/-- One step of splitting: start a new field at a separator, otherwise
extend the current first field. -/
def splitStep (sep : Char) (c : Char) (r : List (List Char)) : List (List Char) :=
  if c = sep then [] :: r
  else
    match r with
    | [] => [[c]]
    | h :: t2 => (c :: h) :: t2

/-- Split a character list at every occurrence of `sep` (like
`str.split(sep)` with a single-character separator). -/
def splitOnChar (sep : Char) (l : List Char) : List (List Char) :=
  l.foldr (splitStep sep) [[]]

/-! ## `main.py:to_float` — locale-tolerant numeric coercion

`to_float` strips spaces and non-breaking spaces, converts a decimal comma
to a decimal point, then calls `float(...)`; any parse failure (and `None`
input) yields `None`.  We model the decimal-literal fragment of Python's
`float()` (optional sign, digits with at most one point); the model
returns `none` exactly where `float()` would raise on such input. -/

/-- Numeric value of a digit string (most significant first). -/
def digitsToNat (l : List Char) : Nat :=
  l.foldl (fun a c => a * 10 + (c.toNat - 48)) 0

/-- The rational denoted by a sign, an integer digit part and a fractional
digit part. -/
def ratOfParts (neg : Bool) (ip fp : List Char) : ℚ :=
  (if neg then -1 else 1) *
    ((digitsToNat ip : ℚ) + (digitsToNat fp : ℚ) / (10 : ℚ) ^ fp.length)

/-- Parse a plain decimal literal (`float("...")` on `sign digits [. digits]`);
`none` where `float()` raises. -/
def parseDecimal (s : String) : Option ℚ :=
  let l := s.toList
  let neg : Bool := match l with | '-' :: _ => true | _ => false
  let l1 : List Char := match l with
    | '-' :: t => t
    | '+' :: t => t
    | _ => l
  match splitOnChar '.' l1 with
  | [ip] =>
    if !ip.isEmpty && ip.all Char.isDigit then some (ratOfParts neg ip [])
    else none
  | [ip, fp] =>
    if !(ip ++ fp).isEmpty && (ip ++ fp).all Char.isDigit then
      some (ratOfParts neg ip fp)
    else none
  | _ => none

/-- `main.py:to_float`: remove `" "` and `" "`, turn `","` into `"."`,
then parse; `None`/unparsable input gives `None` (never raises). -/
def to_float (v : Option String) : Option ℚ :=
  match v with
  | none => none
  | some s =>
    let cleaned := String.mk
      ((s.toList.filter (fun c => c != ' ' && c != ' ')).map
        (fun c => if c = ',' then '.' else c))
    parseDecimal cleaned

/-! ## Price check (`main.py:validate_and_build`, price section) -/

/-- `missing_price = p.price is None or p.price <= 0`. -/
def missing_price_of (price : Option ℚ) : Bool :=
  match price with
  | none => true
  | some x => decide (x ≤ 0)

/-- `p.price_status = "missing" if missing_price else "ok"`. -/
def price_status_of (price : Option ℚ) : String :=
  if missing_price_of price then "missing" else "ok"

/-! ## Identifier check (`validators.py:is_identifier_missing` and the
EAN section of `main.py:validate_and_build`) -/

/-- Case-insensitive literal match of `pat` against a prefix of the input;
returns the remainder on success. -/
def matchCI : List Char → List Char → Option (List Char)
  | [], rest => some rest
  | _ :: _, [] => none
  | p :: ps, c :: cs => if p.toLower = c.toLower then matchCI ps cs else none

/-- One attempt of `re.search(r"identifier_exists\s*=\s*no", ..., re.I)`
anchored at the head of the list. -/
def markerAt (l : List Char) : Bool :=
  match matchCI ("identifier_exists".toList) l with
  | none => false
  | some r1 =>
    match r1.dropWhile Char.isWhitespace with
    | '=' :: r3 => (matchCI ("no".toList) (r3.dropWhile Char.isWhitespace)).isSome
    | _ => false

/-- `re.search` over every start position. -/
def markerSearchL : List Char → Bool
  | [] => false
  | c :: t => markerAt (c :: t) || markerSearchL t

/-- `IDENTIFIER_MISSING_PAT.search(s)` from `validators.py`. -/
def hasMarker (s : String) : Bool := markerSearchL s.toList

/-- Number of digit characters of the raw identifier
(`len("".join(c for c in s if c.isdigit()))`). -/
def digitCount (s : String) : Nat := (s.toList.filter Char.isDigit).length

/-- The shared emptiness/placeholder test
`not s or s.strip() in set("-", "0", "None", "")`, exactly as written both in
`validators.py:is_identifier_missing` and in the EAN branch of
`main.py:validate_and_build`. -/
abbrev sentinelCond (e : String) : Prop :=
  e = "" ∨ pyStrip e = "-" ∨ pyStrip e = "0" ∨ pyStrip e = "None" ∨ pyStrip e = ""

/-- `validators.py:is_identifier_missing`. -/
def is_identifier_missing (e : String) : Bool :=
  if sentinelCond e then true
  else if hasMarker e then true
  else if digitCount e = 8 ∨ digitCount e = 12 ∨ digitCount e = 13 ∨ digitCount e = 14
    then false
  else true

/-- The EAN status assignment of `main.py:validate_and_build`: `"missing"`
on empty/placeholder input, otherwise `"wrong"` when
`is_identifier_missing` flags it, otherwise `"ok"`.  `p.ean` is an
`Option`; validators receive `p.ean or ""`. -/
def ean_status_of (ean : Option String) : String :=
  let e := ean.getD ""
  if sentinelCond e then "missing"
  else if is_identifier_missing e then "wrong"
  else "ok"

/-! ## Image check (`validators.py:check_image_ok`) -/

/-- Outcome of one outbound HTTP call: a response with a status code, or a
raised transport exception. -/
inductive HttpResult where
  | exc : HttpResult
  | resp : Nat → HttpResult
deriving DecidableEq

/-- `validators.py:check_image_ok`: reject absent / non-`http` URLs, HEAD
probe, on status ≥ 400 or 405 retry once with a ranged GET, succeed iff the
final status is `< 400`; any exception gives `False`.  The two calls'
outcomes are passed in as `head` and `get`. -/
def check_image_ok (url : Option String) (head get : HttpResult) : Bool :=
  match url with
  | none => false
  | some u =>
    if u = "" ∨ strStartsWith u "http" = false then false
    else
      match head with
      | .exc => false
      | .resp s =>
        if s ≥ 400 ∨ s = 405 then
          match get with
          | .exc => false
          | .resp s2 => decide (s2 < 400)
        else decide (s < 400)

/-- The status of the response that `check_image_ok`'s final
`r.status_code < 400` test inspects (`none` when an exception was raised
before reaching it). -/
def finalImageResponse (head get : HttpResult) : Option Nat :=
  match head with
  | .exc => none
  | .resp s =>
    if s ≥ 400 ∨ s = 405 then
      match get with
      | .exc => none
      | .resp s2 => some s2
    else some s

/-! ## Title assessment (`ai_title.py:generate_title_suggestion_openai`
and the title section of `main.py:validate_and_build`) -/

/-- A parsed assessment body: the dict the service returns, with Python
`dict.get` modelled by `Option` fields. -/
structure Assess where
  name_quality : Option String
  suggested_title : Option String
deriving DecidableEq

/-- Outcome of the OpenAI REST call: transport failure (timeout,
connection error, non-2xx `raise_for_status`, `json.loads` failure), a
body that is not a dict carrying `name_quality`, or a parsed dict. -/
inductive ApiOutcome where
  | transportError : ApiOutcome
  | notDict : ApiOutcome
  | parsed : Assess → ApiOutcome
deriving DecidableEq

/-- `ai_title.py:generate_title_suggestion_openai`: `None` without the
`OPENAI_API_KEY` credential, `None` on every failure of the call or of
body parsing, the parsed dict otherwise. -/
def generate_title_suggestion_openai (apiKey : Option String) (o : ApiOutcome) :
    Option Assess :=
  match apiKey with
  | none => none
  | some _ =>
    match o with
    | .transportError => none
    | .notDict => none
    | .parsed a => some a

/-- `q = (assess.get("name_quality") or "").strip().lower()`. -/
def qNorm (q : Option String) : String := pyLower (pyStrip (q.getD ""))

/-- The `name_status` / `name_suggested` pair produced by the title
section of `validate_and_build`. -/
structure TitleOut where
  name_status : String
  name_suggested : Option String
deriving DecidableEq

/-- `(sug or "").strip()[:1024] if isinstance(sug, str) and sug.strip() else None`. -/
def cleanSuggestion (sug : Option String) : Option String :=
  match sug with
  | none => none
  | some s => if pyStrip s = "" then none else some (strTake (pyStrip s) 1024)

/-- `not p.name or not str(p.name).strip()`. -/
def nameBlank (name : Option String) : Bool :=
  match name with
  | none => true
  | some s => decide (s = "" ∨ pyStrip s = "")

/-- The title-resolution ladder of `main.py:validate_and_build`: on a
usable assessment map `ok`/`weak`/`empty` to the corresponding status (with
the cleaned suggestion for `weak`/`empty`); for an unrecognized quality or
a failed call (`assess = none`, covering the `except` path) fall back to
the presence-only rule. -/
def resolve_title (name : Option String) (assess : Option Assess) : TitleOut :=
  match assess with
  | some a =>
    let q := qNorm a.name_quality
    if q = "ok" then ⟨"OK", none⟩
    else if q = "weak" then ⟨"weak", cleanSuggestion a.suggested_title⟩
    else if q = "empty" then ⟨"empty", cleanSuggestion a.suggested_title⟩
    else if nameBlank name then ⟨"empty", none⟩
    else ⟨"OK", none⟩
  | none =>
    if nameBlank name then ⟨"empty", none⟩ else ⟨"OK", none⟩

/-! ## The assembled record validator (`main.py:validate_and_build`) -/

/-- The fields of the persisted `Product` row that the validator writes
(`models.py:Product`, restricted to the validation outputs plus `name`). -/
structure ProductV where
  name : Option String
  missing_price : Bool
  price_status : String
  missing_identifier : Bool
  ean_status : String
  broken_image : Bool
  image_status : String
  name_status : String
  name_suggested : Option String
  validation_result : String
deriving DecidableEq

/-- The overall-result expression of `validate_and_build`:
`"OK" if (price ok and ean ok and image ok and name OK) else "ISSUE"`. -/
def overall_of (pst est ist nst : String) : String :=
  if pst = "ok" ∧ est = "ok" ∧ ist = "ok" ∧ nst = "OK" then "OK" else "ISSUE"

/-- `main.py:validate_and_build` on one mapped row.  `price` is the
already-coerced `to_float` result (as produced by `map_row`), `head`/`get`
are the image probe outcomes, `assess` the title-assessment result
(`none` for the `except`/failure path). -/
def validate_and_build (price : Option ℚ) (ean name image_url : Option String)
    (head get : HttpResult) (assess : Option Assess) : ProductV :=
  let mp := missing_price_of price
  let pst := price_status_of price
  let mi := is_identifier_missing (ean.getD "")
  let est := ean_status_of ean
  let okImg := check_image_ok image_url head get
  let ist := if okImg then "ok" else "broken"
  let t := resolve_title name assess
  { name := name
    missing_price := mp
    price_status := pst
    missing_identifier := mi
    ean_status := est
    broken_image := !okImg
    image_status := ist
    name_status := t.name_status
    name_suggested := t.name_suggested
    validation_result := overall_of pst est ist t.name_status }

/-! ## Feed parser (`ingest.py:parse_semicolon_csv`)

`parse_semicolon_csv` decodes the bytes and hands the text to
`csv.DictReader(..., delimiter=";")`, raising when `reader.fieldnames` is
falsy.  We model the decoded text (`String`) and `DictReader`'s behaviour
on quote-free input: the first line is the header, blank data lines are
skipped, each remaining line is split on `";"`; values beyond the header
length are collected under the rest key, headers beyond the value count
get `None`. -/

/-- One `DictReader` row: header fields zipped with values (`none` for a
missing trailing value), plus the extra values beyond the header length. -/
structure CsvRow where
  fields : List (String × Option String)
  extra : List String
deriving DecidableEq

/-- Header names zipped with row values, `none` once values run out
(`DictReader`'s `restval`). -/
def zipHeader : List String → List String → List (String × Option String)
  | [], _ => []
  | h :: hs, [] => (h, none) :: zipHeader hs []
  | h :: hs, v :: vs => (h, some v) :: zipHeader hs vs

/-- Build one `DictReader` row from the header and the split line. -/
def mkRow (header vals : List String) : CsvRow :=
  ⟨zipHeader header vals, vals.drop header.length⟩

/-- Split a line at every `";"`. -/
def splitSemi (line : String) : List String :=
  (splitOnChar ';' line.toList).map String.mk

/-- Split the decoded feed text into lines. -/
def splitFeedLines (s : String) : List String :=
  (splitOnChar '\n' s.toList).map String.mk

/-- `DictReader` over the list of lines: the first line (even a
separator-free banner) is the header; error when the header is absent or
empty (`if not reader.fieldnames: raise RuntimeError(...)`); blank data
lines are skipped; every other line becomes a row. -/
def parseCsvLines (lines : List String) : Except String (List CsvRow) :=
  match lines with
  | [] => .error "CSV header missing or wrong delimiter"
  | first :: rest =>
    if first = "" then .error "CSV header missing or wrong delimiter"
    else
      let header := splitSemi first
      .ok ((rest.filter (fun l => l ≠ "")).map (fun l => mkRow header (splitSemi l)))

/-- `ingest.py:parse_semicolon_csv` on the decoded feed text. -/
def parse_semicolon_csv (content : String) : Except String (List CsvRow) :=
  parseCsvLines (splitFeedLines content)

instance {ε α : Type} [DecidableEq ε] [DecidableEq α] : DecidableEq (Except ε α) :=
  fun x y =>
    match x, y with
    | .ok a, .ok b =>
      if h : a = b then isTrue (by rw [h])
      else isFalse (by intro he; cases he; exact h rfl)
    | .error a, .error b =>
      if h : a = b then isTrue (by rw [h])
      else isFalse (by intro he; cases he; exact h rfl)
    | .ok _, .error _ => isFalse (by intro he; cases he)
    | .error _, .ok _ => isFalse (by intro he; cases he)

/-! ## Run orchestration (`main.py:_ingest_impl` and `main.py:ingest`)

One run: fetch + parse (any failure there is the `except` path of
`ingest`), initialize the module-level `PROGRESS` dict, validate every row
(workers increment `PROGRESS["done"]` once per record), commit the
`DELETE FROM product` alone, then commit the inserts, store the summary
and clear `running`.  The fetch/parse outcome and every row's external
call outcomes are inputs of the model. -/

/-- The per-row data `_ingest_impl`'s `map_row` feeds into
`validate_and_build`, together with the outcomes of that row's external
calls. -/
structure RowInput where
  priceRaw : Option String
  ean : Option String
  name : Option String
  image_url : Option String
  headR : HttpResult
  getR : HttpResult
  assess : Option Assess
deriving DecidableEq

/-- `validate_and_build (map_row r)` for one row. -/
def validateRow (r : RowInput) : ProductV :=
  validate_and_build (to_float r.priceRaw) r.ean r.name r.image_url r.headR r.getR
    r.assess

/-- The run summary `_ingest_impl` returns and stores. -/
structure Summary where
  ingested : Nat
  flagged_issues : Nat
  example_improved_title : Option String
  example_old_title : Option String
deriving DecidableEq

/-- The module-level `PROGRESS` dict of `main.py`. -/
structure Progress where
  running : Bool
  total : Nat
  done : Nat
  summary : Option Summary
deriving DecidableEq

/-- Truthiness of `p.name_suggested` (`None` and `""` are falsy). -/
def sugTruthy (o : Option String) : Bool :=
  match o with
  | none => false
  | some s => !s.isEmpty

/-- The aggregate `_ingest_impl` computes: record count, count with
`validation_result != "OK"`, and the first record whose `name_status` is
`weak`/`empty` with a truthy suggestion. -/
def summarize (ps : List ProductV) : Summary :=
  let ex := ps.find? fun p =>
    (decide (p.name_status = "weak") || decide (p.name_status = "empty")) &&
      sugTruthy p.name_suggested
  { ingested := ps.length
    flagged_issues := (ps.filter fun p => decide (p.validation_result ≠ "OK")).length
    example_improved_title := match ex with | some p => p.name_suggested | none => none
    example_old_title := match ex with | some p => p.name | none => none }

/-- A primitive operation sent to the store. -/
inductive StoreOp where
  | deleteAll : StoreOp
  | insert : ProductV → StoreOp
deriving DecidableEq

/-- What the `/ingest` endpoint answers: the summary JSON, or the
status-500 error JSON of the `except` branch. -/
inductive Response where
  | success : Summary → Response
  | failure : String → Response
deriving DecidableEq

/-- The observable outcome of one trigger of `/ingest`: final `PROGRESS`,
final store contents, the sequence of committed units (each inner list is
one `session.commit()`), and the HTTP response. -/
structure IngestResult where
  progress : Progress
  store : List ProductV
  commits : List (List StoreOp)
  response : Response
deriving DecidableEq

/-- `main.py:ingest` / `_ingest_impl` on one trigger.  `fetchRes` is the
combined fetch+parse outcome (`Except` for the raised `FetchError` /
`ParseError`); `s0` the `PROGRESS` value left by earlier runs; `st` the
persisted rows.  On failure the `except` branch clears `running` and
touches nothing else; on success the run re-initializes `PROGRESS`
unconditionally (there is no already-running guard in the code), validates
every row, commits the delete alone and then the inserts, and stores the
summary. -/
def ingestRun (fetchRes : Except String (List RowInput)) (s0 : Progress)
    (st : List ProductV) : IngestResult :=
  match fetchRes with
  | .error msg =>
    { progress := { s0 with running := false }
      store := st
      commits := []
      response := .failure msg }
  | .ok rows =>
    let ps := rows.map validateRow
    let out := summarize ps
    { progress := ⟨false, rows.length, rows.length, some out⟩
      store := ps
      commits := [[StoreOp.deleteAll], ps.map StoreOp.insert]
      response := .success out }

/-- The writes `_ingest_impl` performs on `PROGRESS` during a successful
run, in order: one `done` increment per finished record
(`guarded_validate`), then the summary write, then `running = False`. -/
inductive RunEvent where
  | complete : RunEvent
  | setSummary : Summary → RunEvent
  | finish : RunEvent
deriving DecidableEq

/-- Effect of one `PROGRESS` write. -/
def stepProgress (p : Progress) : RunEvent → Progress
  | .complete => { p with done := p.done + 1 }
  | .setSummary s => { p with summary := some s }
  | .finish => { p with running := false }

/-- All states visited when applying a sequence of writes, the starting
state included. -/
def statesFrom (p : Progress) : List RunEvent → List Progress
  | [] => [p]
  | e :: es => p :: statesFrom (stepProgress p e) es

/-- `PROGRESS` right after the initialization block of `_ingest_impl`. -/
def initProgress (n : Nat) : Progress := ⟨true, n, 0, none⟩

/-- The write sequence of a successful run over `rows`. -/
def runEvents (rows : List RowInput) : List RunEvent :=
  rows.map (fun _ => RunEvent.complete) ++
    [RunEvent.setSummary (summarize (rows.map validateRow)), RunEvent.finish]

/-- Every `PROGRESS` state reachable during a successful run, from the
initialization to the final `running = False` write. -/
def progressStates (rows : List RowInput) : List Progress :=
  statesFrom (initProgress rows.length) (runEvents rows)

/-- A concrete minimal row whose external calls all fail. -/
def cexRow : RowInput := ⟨none, none, none, none, .exc, .exc, none⟩


/-! ## Helper lemmas -/

lemma overall_of_eq_OK_iff (pst est ist nst : String) :
    overall_of pst est ist nst = "OK" ↔
      (pst = "ok" ∧ est = "ok" ∧ ist = "ok" ∧ nst = "OK") := by
  unfold overall_of
  split
  · rename_i h
    simp [h]
  · rename_i h
    constructor
    · intro h2
      exact absurd h2 (by decide)
    · intro h2
      exact absurd h2 h

/-! ## C2 — `overall_status` is a pure function of the four dimension
statuses -/

/-- C2: for every validated record, `validation_result` is recomputable as
`overall_of` applied to the record's own four dimension statuses, and it
equals `"OK"` exactly when the price, EAN and image statuses are `"ok"`
and the name status is `"OK"`. -/
theorem claim_C2 (price : Option ℚ) (ean name image_url : Option String)
    (head get : HttpResult) (assess : Option Assess) :
    (validate_and_build price ean name image_url head get assess).validation_result =
      overall_of
        (validate_and_build price ean name image_url head get assess).price_status
        (validate_and_build price ean name image_url head get assess).ean_status
        (validate_and_build price ean name image_url head get assess).image_status
        (validate_and_build price ean name image_url head get assess).name_status ∧
    ((validate_and_build price ean name image_url head get assess).validation_result
        = "OK" ↔
      ((validate_and_build price ean name image_url head get assess).price_status = "ok" ∧
       (validate_and_build price ean name image_url head get assess).ean_status = "ok" ∧
       (validate_and_build price ean name image_url head get assess).image_status = "ok" ∧
       (validate_and_build price ean name image_url head get assess).name_status = "OK")) := by
  constructor
  · rfl
  · exact overall_of_eq_OK_iff _ _ _ _

/-! ## C10 — legacy boolean flags agree with the status strings -/

/-- C10: `missing_price` holds iff `price_status = "missing"`,
`broken_image` holds iff `image_status = "broken"`, and
`missing_identifier` holds iff `ean_status ≠ "ok"`. -/
theorem claim_C10 (price : Option ℚ) (ean name image_url : Option String)
    (head get : HttpResult) (assess : Option Assess) :
    ((validate_and_build price ean name image_url head get assess).missing_price = true ↔
      (validate_and_build price ean name image_url head get assess).price_status
        = "missing") ∧
    ((validate_and_build price ean name image_url head get assess).broken_image = true ↔
      (validate_and_build price ean name image_url head get assess).image_status
        = "broken") ∧
    ((validate_and_build price ean name image_url head get assess).missing_identifier
        = true ↔
      (validate_and_build price ean name image_url head get assess).ean_status ≠ "ok") := by
  refine ⟨?_, ?_, ?_⟩
  · show missing_price_of price = true ↔ price_status_of price = "missing"
    unfold price_status_of
    cases h : missing_price_of price <;> decide
  · show (!check_image_ok image_url head get) = true ↔
      (if check_image_ok image_url head get then "ok" else "broken") = "broken"
    cases h : check_image_ok image_url head get <;> decide
  · show is_identifier_missing (ean.getD "") = true ↔ ean_status_of ean ≠ "ok"
    unfold ean_status_of
    by_cases h1 : sentinelCond (ean.getD "")
    · have hm : is_identifier_missing (ean.getD "") = true := by
        unfold is_identifier_missing
        rw [if_pos h1]
      rw [if_pos h1, hm]
      decide
    · rw [if_neg h1]
      cases h2 : is_identifier_missing (ean.getD "") <;> decide

/-! ## C3 — identifier status routing -/

lemma is_identifier_missing_not_sentinel {e : String} (h : ¬ sentinelCond e) :
    is_identifier_missing e = true ↔
      (hasMarker e = true ∨
        ¬ (digitCount e = 8 ∨ digitCount e = 12 ∨ digitCount e = 13 ∨
           digitCount e = 14)) := by
  unfold is_identifier_missing
  rw [if_neg h]
  split_ifs with h2 h3
  · simp [h2]
  · constructor
    · intro hx
      exact absurd hx (by decide)
    · intro hx
      rcases hx with hx | hx
      · exact absurd hx h2
      · exact absurd h3 hx
  · simp [h3]

/-- C3 (counterexample): the raw identifier `"identifier_exists=no"`
matches the marker pattern, yet its status is `"wrong"` — not the
`"missing"` the claim assigns to marker matches. -/
theorem claim_C3_counterexample :
    ean_status_of (some "identifier_exists=no") = "wrong" ∧
    ean_status_of (some "identifier_exists=no") ≠ "missing" := by
  exact ⟨by decide, by decide⟩

/-- C3 (amended): the status is `"missing"` iff the raw value is empty or
a placeholder sentinel; otherwise it is `"wrong"` (the code's spelling of
"malformed") iff the value matches the marker pattern **or** its digit
count is outside {8, 12, 13, 14}; otherwise `"ok"`.  The claim's scenarios
hold: 13 digits → `"ok"`, `"-"` → `"missing"`, `"12AB"` → `"wrong"`. -/
theorem claim_C3_amended (ean : Option String) :
    (ean_status_of ean = "missing" ↔ sentinelCond (ean.getD "")) ∧
    (ean_status_of ean = "wrong" ↔
      (¬ sentinelCond (ean.getD "") ∧
        (hasMarker (ean.getD "") = true ∨
          ¬ (digitCount (ean.getD "") = 8 ∨ digitCount (ean.getD "") = 12 ∨
             digitCount (ean.getD "") = 13 ∨ digitCount (ean.getD "") = 14)))) ∧
    (ean_status_of ean = "ok" ↔
      (¬ sentinelCond (ean.getD "") ∧ hasMarker (ean.getD "") = false ∧
        (digitCount (ean.getD "") = 8 ∨ digitCount (ean.getD "") = 12 ∨
         digitCount (ean.getD "") = 13 ∨ digitCount (ean.getD "") = 14))) ∧
    ean_status_of (some "1234567890123") = "ok" ∧
    ean_status_of (some "-") = "missing" ∧
    ean_status_of (some "12AB") = "wrong" := by
  refine ⟨?_, ?_, ?_, by decide, by decide, by decide⟩
  · unfold ean_status_of
    by_cases h1 : sentinelCond (ean.getD "")
    · rw [if_pos h1]
      simp [h1]
    · rw [if_neg h1]
      cases h2 : is_identifier_missing (ean.getD "")
      · simpa using h1
      · constructor
        · intro hx
          exact absurd hx (by decide)
        · intro hx
          exact absurd hx h1
  · unfold ean_status_of
    by_cases h1 : sentinelCond (ean.getD "")
    · rw [if_pos h1]
      constructor
      · intro hx
        exact absurd hx (by decide)
      · intro hx
        exact absurd h1 hx.1
    · rw [if_neg h1]
      cases h2 : is_identifier_missing (ean.getD "")
      · constructor
        · intro hx
          exact absurd hx (by decide)
        · intro hx
          have := (is_identifier_missing_not_sentinel h1).2 hx.2
          rw [h2] at this
          exact absurd this (by decide)
      · constructor
        · intro _
          exact ⟨h1, (is_identifier_missing_not_sentinel h1).1 h2⟩
        · intro _
          rfl
  · unfold ean_status_of
    by_cases h1 : sentinelCond (ean.getD "")
    · rw [if_pos h1]
      constructor
      · intro hx
        exact absurd hx (by decide)
      · intro hx
        exact absurd h1 hx.1
    · rw [if_neg h1]
      cases h2 : is_identifier_missing (ean.getD "")
      · constructor
        · intro _
          refine ⟨h1, ?_, ?_⟩
          · cases h3 : hasMarker (ean.getD "")
            · rfl
            · have := (is_identifier_missing_not_sentinel h1).2 (Or.inl h3)
              rw [h2] at this
              exact absurd this (by decide)
          · by_contra h4
            have := (is_identifier_missing_not_sentinel h1).2 (Or.inr h4)
            rw [h2] at this
            exact absurd this (by decide)
        · intro _
          rfl
      · constructor
        · intro hx
          exact absurd hx (by decide)
        · intro hx
          rcases (is_identifier_missing_not_sentinel h1).1 h2 with hm | hd
          · rw [hx.2.1] at hm
            exact absurd hm (by decide)
          · exact absurd hx.2.2 hd

/-! ## C4 — price status -/

/-- C4: the price status is `"missing"` exactly when the parsed price is
absent or `≤ 0`, and `"ok"` exactly when it is present and positive;
`to_float` turns `"1 234,50"` into `1234.5` (status `"ok"`), the empty
field into `none` (status `"missing"`), and unparsable text into `none`
without raising. -/
theorem claim_C4 (raw : Option String) :
    (price_status_of (to_float raw) = "missing" ↔
      (to_float raw = none ∨ ∃ x, to_float raw = some x ∧ x ≤ 0)) ∧
    (price_status_of (to_float raw) = "ok" ↔
      (∃ x, to_float raw = some x ∧ 0 < x)) ∧
    to_float (some "1 234,50") = some (2469 / 2 : ℚ) ∧
    to_float (some "") = none ∧
    to_float (some "abc") = none ∧
    price_status_of (to_float (some "1 234,50")) = "ok" ∧
    price_status_of (to_float (some "")) = "missing" := by
  have hval : to_float (some "1 234,50") = some (2469 / 2 : ℚ) := by
    have h : to_float (some "1 234,50") =
        some (ratOfParts false ['1', '2', '3', '4'] ['5', '0']) := rfl
    rw [h]
    have h2 : digitsToNat ['1', '2', '3', '4'] = 1234 := by decide
    have h3 : digitsToNat ['5', '0'] = 50 := by decide
    unfold ratOfParts
    rw [h2, h3]
    norm_num
  refine ⟨?_, ?_, hval, by decide, by decide, ?_, by decide⟩
  · cases hp : to_float raw with
    | none => simp [price_status_of, missing_price_of]
    | some x =>
      by_cases hx : x ≤ 0
      · simp [price_status_of, missing_price_of, hx]
      · simp [price_status_of, missing_price_of, hx]
  · cases hp : to_float raw with
    | none => simp [price_status_of, missing_price_of]
    | some x =>
      by_cases hx : x ≤ 0
      · simp [price_status_of, missing_price_of, hx, not_lt.2 hx]
      · simp [price_status_of, missing_price_of, hx, lt_of_not_le hx]
  · rw [hval]
    simp [price_status_of, missing_price_of,
      show ¬ ((2469 / 2 : ℚ) ≤ 0) by norm_num]

/-! ## C5 — title-assessment failure falls back to the presence-only rule -/

/-- The call failed (returned `None`, which the `except` path also yields)
or produced a quality value outside `ok`/`weak`/`empty`. -/
def assessUnusable (assess : Option Assess) : Prop :=
  match assess with
  | none => True
  | some a =>
    qNorm a.name_quality ≠ "ok" ∧ qNorm a.name_quality ≠ "weak" ∧
      qNorm a.name_quality ≠ "empty"

/-- C5: whenever the title-assessment call fails (missing credential,
transport error, non-success response, malformed body — all of which make
`generate_title_suggestion_openai` return `none`) or returns an
unrecognized quality value, the title resolution is the presence-only
fallback: `"empty"` for a blank name, else `"OK"`, with no suggestion, and
the status is never the out-of-band `"cant_generate"` value. -/
theorem claim_C5 (name apiKey : Option String) (o : ApiOutcome)
    (h : assessUnusable (generate_title_suggestion_openai apiKey o)) :
    resolve_title name (generate_title_suggestion_openai apiKey o) =
      (if nameBlank name then ⟨"empty", none⟩ else ⟨"OK", none⟩) ∧
    ((resolve_title name (generate_title_suggestion_openai apiKey o)).name_status = "OK" ∨
      (resolve_title name (generate_title_suggestion_openai apiKey o)).name_status
        = "empty") ∧
    (resolve_title name (generate_title_suggestion_openai apiKey o)).name_suggested
      = none ∧
    (resolve_title name (generate_title_suggestion_openai apiKey o)).name_status
      ≠ "cant_generate" := by
  cases hA : generate_title_suggestion_openai apiKey o with
  | none =>
    cases hb : nameBlank name <;> simp [resolve_title, hb]
  | some a =>
    rw [hA] at h
    have h2 : qNorm a.name_quality ≠ "ok" ∧ qNorm a.name_quality ≠ "weak" ∧
        qNorm a.name_quality ≠ "empty" := h
    simp only [resolve_title]
    rw [if_neg h2.1, if_neg h2.2.1, if_neg h2.2.2]
    cases hb : nameBlank name <;> simp [hb]

/-- C5 witness: a missing credential on a named record resolves to
`name_status = "OK"` with no suggestion. -/
theorem claim_C5_witness :
    resolve_title (some "Chair") (generate_title_suggestion_openai none .transportError) =
      ⟨"OK", none⟩ := by
  have h := claim_C5 (some "Chair") none .transportError trivial
  rw [h.1]
  decide

/-! ## C6 — image reachability check -/

/-- C6: `check_image_ok` succeeds exactly when a nonempty `http` URL is
present and the response it ends on (HEAD, or the ranged-GET retry taken
on a status ≥ 400 or a 405) has a status below 400; absent or non-`http`
URLs and transport exceptions give `false`.  The claim's scenario holds:
405 on HEAD then 200 on the ranged GET is `true`. -/
theorem claim_C6 (url : Option String) (head get : HttpResult) :
    (check_image_ok url head get = true ↔
      ∃ u, url = some u ∧ u ≠ "" ∧ strStartsWith u "http" = true ∧
        ∃ s, finalImageResponse head get = some s ∧ s < 400) ∧
    check_image_ok (some "http://h/img.jpg") (.resp 405) (.resp 200) = true := by
  constructor
  · cases url with
    | none => simp [check_image_ok]
    | some u =>
      simp only [check_image_ok, finalImageResponse]
      by_cases hu : u = "" ∨ strStartsWith u "http" = false
      · rw [if_pos hu]
        constructor
        · intro hx
          exact absurd hx (by decide)
        · rintro ⟨u2, hu2, hne, hst, -⟩
          injection hu2 with he
          subst he
          rcases hu with h | h
          · exact (hne h).elim
          · rw [h] at hst
            exact absurd hst (by decide)
      · rw [if_neg hu]
        push_neg at hu
        have hst : strStartsWith u "http" = true := by
          cases hq : strStartsWith u "http"
          · exact absurd hq hu.2
          · rfl
        cases head with
        | exc => simp
        | resp s =>
          dsimp only
          by_cases h4 : s ≥ 400 ∨ s = 405
          · rw [if_pos h4, if_pos h4]
            cases get with
            | exc => simp
            | resp s2 => simp [hu.1, hst]
          · rw [if_neg h4, if_neg h4]
            simp [hu.1, hst]
  · decide

/-! ## C1 — no single-flight guard on the run trigger -/

/-- C1 (counterexample): a trigger arriving while `PROGRESS` says
`running = True` (here with `total = 5`, `done = 3`) is not rejected: the
run executes (commits are issued, the response is the new summary) and
both counters are overwritten. -/
theorem claim_C1_counterexample :
    (ingestRun (.ok [cexRow]) ⟨true, 5, 3, none⟩ []).progress.total = 1 ∧
    (ingestRun (.ok [cexRow]) ⟨true, 5, 3, none⟩ []).progress.total ≠ 5 ∧
    (ingestRun (.ok [cexRow]) ⟨true, 5, 3, none⟩ []).progress.done = 1 ∧
    (ingestRun (.ok [cexRow]) ⟨true, 5, 3, none⟩ []).progress.done ≠ 3 ∧
    (ingestRun (.ok [cexRow]) ⟨true, 5, 3, none⟩ []).response =
      .success (summarize [validateRow cexRow]) ∧
    (ingestRun (.ok [cexRow]) ⟨true, 5, 3, none⟩ []).commits ≠ [] := by
  refine ⟨rfl, by decide, rfl, by decide, rfl, by decide⟩

/-- C1 (amended): the trigger has no already-running guard — a request
arriving in any state with `running = true` starts a full new run anyway,
re-initializing `total` to the new row count and driving `done` to it, and
answers with the new run's summary. -/
theorem claim_C1_amended (s0 : Progress) (rows : List RowInput) (st : List ProductV) :
    (ingestRun (.ok rows) { s0 with running := true } st).progress =
      ⟨false, rows.length, rows.length, some (summarize (rows.map validateRow))⟩ ∧
    (ingestRun (.ok rows) { s0 with running := true } st).response =
      .success (summarize (rows.map validateRow)) ∧
    (ingestRun (.ok rows) { s0 with running := true } st).store =
      rows.map validateRow := by
  exact ⟨rfl, rfl, rfl⟩

/-! ## C8 — the store swap is two committed units, not one -/

/-- C8 (counterexample): on a one-row run the store operations are issued
as two separate committed units — `[DELETE]` then `[INSERT]` — not as the
single `[DELETE, INSERT]` unit the claim states. -/
theorem claim_C8_counterexample :
    (ingestRun (.ok [cexRow]) ⟨false, 0, 0, none⟩ []).commits =
      [[StoreOp.deleteAll], [StoreOp.insert (validateRow cexRow)]] ∧
    (ingestRun (.ok [cexRow]) ⟨false, 0, 0, none⟩ []).commits ≠
      [[StoreOp.deleteAll, StoreOp.insert (validateRow cexRow)]] := by
  refine ⟨rfl, by decide⟩

/-- C8 (amended): a successful run deletes all rows in one committed unit
and inserts the full new set in a second committed unit, after which the
store holds exactly the new records; a run failing at fetch/parse issues
no store operation at all, leaves the store untouched and reports the
error. -/
theorem claim_C8_amended (msg : String) (rows : List RowInput) (s0 : Progress)
    (st : List ProductV) :
    (ingestRun (.error msg) s0 st).store = st ∧
    (ingestRun (.error msg) s0 st).commits = [] ∧
    (ingestRun (.error msg) s0 st).response = .failure msg ∧
    (ingestRun (.error msg) s0 st).progress = { s0 with running := false } ∧
    (ingestRun (.ok rows) s0 st).commits =
      [[StoreOp.deleteAll], (rows.map validateRow).map StoreOp.insert] ∧
    (ingestRun (.ok rows) s0 st).store = rows.map validateRow := by
  exact ⟨rfl, rfl, rfl, rfl, rfl, rfl⟩

/-! ## C7 — the parser does not discard separator-free lines -/

lemma mk_toList (s : String) : String.mk s.toList = s := by
  cases s
  rfl

lemma splitOnChar_not_mem {c : Char} {l : List Char} (h : c ∉ l) :
    splitOnChar c l = [l] := by
  induction l with
  | nil => rfl
  | cons a t ih =>
    have ha : ¬ a = c := fun he => h (he ▸ List.mem_cons_self a t)
    have ht : c ∉ t := fun hm => h (List.mem_cons_of_mem a hm)
    have ih2 := ih ht
    unfold splitOnChar at ih2 ⊢
    rw [List.foldr_cons, ih2]
    unfold splitStep
    rw [if_neg ha]

lemma splitOnChar_append_cons (c : Char) (l1 l2 : List Char) (h : c ∉ l1) :
    splitOnChar c (l1 ++ c :: l2) = l1 :: splitOnChar c l2 := by
  induction l1 with
  | nil =>
    show splitOnChar c (c :: l2) = [] :: splitOnChar c l2
    unfold splitOnChar
    rw [List.foldr_cons]
    unfold splitStep
    rw [if_pos rfl]
  | cons a t ih =>
    have ha : ¬ a = c := fun he => h (he ▸ List.mem_cons_self a t)
    have ht : c ∉ t := fun hm => h (List.mem_cons_of_mem a hm)
    have ih2 := ih ht
    show splitOnChar c (a :: (t ++ c :: l2)) = (a :: t) :: splitOnChar c l2
    unfold splitOnChar at ih2 ⊢
    rw [List.foldr_cons, ih2]
    unfold splitStep
    rw [if_neg ha]

/-- C7 (counterexample): on the claim's scenario input the parser yields
two records keyed by the banner line — not the single
`Header1 ↦ "A", Header2 ↦ "B"` record the claim states. -/
theorem claim_C7_counterexample :
    parse_semicolon_csv "Banner\nHeader1;Header2\nA;B" =
      .ok [⟨[("Banner", some "Header1")], ["Header2"]⟩,
           ⟨[("Banner", some "A")], ["B"]⟩] ∧
    parse_semicolon_csv "Banner\nHeader1;Header2\nA;B" ≠
      .ok [⟨[("Header1", some "A"), ("Header2", some "B")], []⟩] := by
  exact ⟨by decide, by decide⟩

/-- C7 (amended): the parser discards nothing — `csv.DictReader` takes the
first line, banner or not, as the header.  Any nonempty separator-free
banner line followed by `Header1;Header2` and `A;B` produces two records,
each keyed by the banner, with the intended header and data relegated to
values. -/
theorem claim_C7_amended (b : String) (hb : b ≠ "") (hsemi : ';' ∉ b.toList)
    (hnl : '\n' ∉ b.toList) :
    parse_semicolon_csv (b ++ "\nHeader1;Header2\nA;B") =
      .ok [⟨[(b, some "Header1")], ["Header2"]⟩, ⟨[(b, some "A")], ["B"]⟩] := by
  unfold parse_semicolon_csv splitFeedLines
  have h1 : (b ++ "\nHeader1;Header2\nA;B").toList =
      b.toList ++ '\n' :: ("Header1;Header2\nA;B".toList) := by
    show (b ++ "\nHeader1;Header2\nA;B").data = _
    rw [String.data_append]
    rfl
  rw [h1, splitOnChar_append_cons _ _ _ hnl]
  have h2 : splitOnChar '\n' ("Header1;Header2\nA;B".toList) =
      ["Header1;Header2".toList, "A;B".toList] := by decide
  rw [h2]
  simp only [List.map_cons, List.map_nil, mk_toList]
  unfold parseCsvLines
  dsimp only
  rw [if_neg hb]
  have hh : splitSemi b = [b] := by
    unfold splitSemi
    rw [splitOnChar_not_mem hsemi]
    simp only [List.map_cons, List.map_nil, mk_toList]
  rw [hh]
  have hf : (["Header1;Header2", "A;B"] : List String).filter
      (fun l => l ≠ "") = ["Header1;Header2", "A;B"] := by decide
  rw [hf]
  have hs1 : splitSemi "Header1;Header2" = ["Header1", "Header2"] := by decide
  have hs2 : splitSemi "A;B" = ["A", "B"] := by decide
  simp only [List.map_cons, List.map_nil, hs1, hs2]
  rfl

/-- C7 witness: the amended behaviour at the concrete banner `"Banner"`. -/
theorem claim_C7_witness :
    parse_semicolon_csv ("Banner" ++ "\nHeader1;Header2\nA;B") =
      .ok [⟨[("Banner", some "Header1")], ["Header2"]⟩,
           ⟨[("Banner", some "A")], ["B"]⟩] :=
  claim_C7_amended "Banner" (by decide) (by decide) (by decide)

/-! ## C9 — progress-counter invariants along a run -/

lemma statesFrom_replicate (m : Nat) (rest : List RunEvent) (p : Progress) :
    statesFrom p (List.replicate m RunEvent.complete ++ rest) =
      ((List.range m).map fun k => { p with done := p.done + k }) ++
        statesFrom { p with done := p.done + m } rest := by
  induction m generalizing p with
  | zero => simp [statesFrom]
  | succ m ih =>
    have hstep : statesFrom p (List.replicate (m + 1) RunEvent.complete ++ rest) =
        p :: statesFrom { p with done := p.done + 1 }
          (List.replicate m RunEvent.complete ++ rest) := rfl
    rw [hstep, ih]
    dsimp only
    rw [List.range_succ_eq_map, List.map_cons, List.map_map, List.cons_append]
    have h0 : ({ p with done := p.done + 0 } : Progress) = p := by simp
    rw [h0]
    have hf2 : (fun k => ({ p with done := p.done + k } : Progress)) ∘ Nat.succ
        = fun k => ({ p with done := p.done + 1 + k } : Progress) := by
      funext k
      show ({ p with done := p.done + Nat.succ k } : Progress) = _
      have : p.done + Nat.succ k = p.done + 1 + k := by omega
      rw [this]
    rw [hf2]
    have hm : p.done + 1 + m = p.done + (m + 1) := by omega
    rw [hm]

lemma progressStates_eq (rows : List RowInput) :
    progressStates rows =
      ((List.range rows.length).map fun k =>
        Progress.mk true rows.length k none) ++
        [⟨true, rows.length, rows.length, none⟩,
         ⟨true, rows.length, rows.length, some (summarize (rows.map validateRow))⟩,
         ⟨false, rows.length, rows.length, some (summarize (rows.map validateRow))⟩] := by
  unfold progressStates runEvents
  rw [List.map_const', statesFrom_replicate]
  unfold initProgress
  dsimp only
  simp only [Nat.zero_add]
  rfl

lemma chain_statesFrom {R : Progress → Progress → Prop}
    (hR : ∀ p e, R p (stepProgress p e)) :
    ∀ (es : List RunEvent) (p : Progress), List.Chain' R (statesFrom p es) := by
  intro es
  induction es with
  | nil =>
    intro p
    simp [statesFrom]
  | cons e es ih =>
    intro p
    rw [show statesFrom p (e :: es) =
      p :: statesFrom (stepProgress p e) es from rfl]
    rw [List.chain'_cons']
    refine ⟨?_, ih (stepProgress p e)⟩
    intro y hy
    have hhead : (statesFrom (stepProgress p e) es).head? =
        some (stepProgress p e) := by
      cases es <;> rfl
    rw [hhead] at hy
    simp only [Option.mem_def, Option.some.injEq] at hy
    subst hy
    exact hR p e

/-- C9: along every `PROGRESS` state visited by a successful run, `done`
never exceeds `total`; each step leaves `done` unchanged or raises it by
exactly one; `done = total` whenever the summary is populated; and the run
ends (equivalently: `ingestRun` leaves `PROGRESS`) at
`running = false, done = total` with the summary in place. -/
theorem claim_C9 (rows : List RowInput) :
    (∀ p ∈ progressStates rows, p.done ≤ p.total) ∧
    List.Chain' (fun a b => b.done = a.done ∨ b.done = a.done + 1)
      (progressStates rows) ∧
    (∀ p ∈ progressStates rows, p.summary.isSome = true → p.done = p.total) ∧
    (progressStates rows).getLast? =
      some ⟨false, rows.length, rows.length,
        some (summarize (rows.map validateRow))⟩ ∧
    (progressStates rows).getLast? =
      some (ingestRun (.ok rows) (initProgress rows.length) []).progress := by
  have hCF := progressStates_eq rows
  refine ⟨?_, ?_, ?_, ?_, ?_⟩
  · intro p hp
    rw [hCF] at hp
    rcases List.mem_append.1 hp with h | h
    · rcases List.mem_map.1 h with ⟨k, hk, rfl⟩
      exact Nat.le_of_lt (List.mem_range.1 hk)
    · simp only [List.mem_cons, List.not_mem_nil, or_false] at h
      rcases h with rfl | rfl | rfl <;> exact Nat.le_refl _
  · have hR : ∀ p e, (fun a b : Progress =>
        b.done = a.done ∨ b.done = a.done + 1) p (stepProgress p e) := by
      intro p e
      cases e
      · exact Or.inr rfl
      · exact Or.inl rfl
      · exact Or.inl rfl
    exact chain_statesFrom hR (runEvents rows) (initProgress rows.length)
  · intro p hp hs
    rw [hCF] at hp
    rcases List.mem_append.1 hp with h | h
    · rcases List.mem_map.1 h with ⟨k, hk, rfl⟩
      simp at hs
    · simp only [List.mem_cons, List.not_mem_nil, or_false] at h
      rcases h with rfl | rfl | rfl
      · simp at hs
      · rfl
      · rfl
  · rw [hCF, List.getLast?_append_cons]
    rfl
  · rw [hCF, List.getLast?_append_cons]
    rfl

/-- C9 witness: on the empty run, the initial state satisfies
`done ≤ total`, and the summary-populated final state has `done = total`. -/
theorem claim_C9_witness :
    (Progress.mk true 0 0 none).done ≤ (Progress.mk true 0 0 none).total ∧
    (Progress.mk false 0 0 (some (summarize []))).done =
      (Progress.mk false 0 0 (some (summarize []))).total :=
  ⟨(claim_C9 []).1 _ (by decide), (claim_C9 []).2.2.1 _ (by decide) (by decide)⟩
